import Mathlib

/-!
Verification development for the PlasticineLab optimizer modules
(`plb/optimizer/solver.py`, `plb/optimizer/learn_latent.py`,
`plb/optimizer/focal_learn_latent.py`).

The Python code is shallowly embedded: numeric scalars that can be NaN are
modelled by `FVal` (a rational or NaN), point clouds and gradients are lists,
the external rollout engine / EMD oracle / autoencoder are parameters of the
embedded functions, and Python container mutation (for the frame condition of
`exec_multistep`) is modelled on an explicit heap of containers.
-/

namespace PLB

/-- A floating-point scalar, modelled as either NaN or an exact rational.
Mirrors the torch/numpy scalars flowing through the gradient pipeline. -/
inductive FVal where
  | nan : FVal
  | val : ℚ → FVal
deriving DecidableEq, Repr

/-- `torch.Tensor.clamp(lo, hi)` on one element: NaN propagates, a real value
is clipped into `[lo, hi]`. -/
def FVal.clamp (lo hi : ℚ) : FVal → FVal
  | .nan => .nan
  | .val q => .val (if q < lo then lo else if hi < q then hi else q)

/-- `torch.isnan` on one element. -/
def FVal.isnan : FVal → Bool
  | .nan => true
  | .val _ => false

/-- `torch.isnan(t).any()` over a flattened tensor. -/
def anyNan (g : List FVal) : Bool := g.any FVal.isnan

/-- A point cloud / tensor payload: a list of rational coordinates. -/
abbrev Cloud := List ℚ

/-- A particle state as passed into the Solver: the list of five numpy
arrays, the first of which is the particle-position cloud. -/
abbrev PState := List Cloud

/--
Effective rollout length selection shared verbatim by
`Solver.solve_multistep` and `Solver.exec_multistep` in both
`learn_latent.py` (lines 88-91) and `focal_learn_latent.py` (lines 87-90,
135-138):

    if self.steps == None:
        steps = len(targets)
    else:
        steps = self.steps if ((self.steps<len(targets)) and (self.steps>0)) else len(targets)

`steps` is the configured step count (`None` when unset, possibly
non-positive), `targetLen` is `len(targets)`.
-/
def effectiveSteps (steps : Option ℤ) (targetLen : ℕ) : ℕ :=
  match steps with
  | none => targetLen
  | some s => if s < (targetLen : ℤ) ∧ s > 0 then s.toNat else targetLen

/-- Result quadruple of `solve_multistep`:
`(resulting states, gradient, loss_first, loss)`; the first two are `None`
exactly on the NaN path. -/
abbrev SolveResult := Option Cloud × Option (List FVal) × ℚ × ℚ

/--
`focal_learn_latent.Solver.solve_multistep` (lines 65-112), embedded.

External collaborators are parameters:
* `model` — the autoencoder forward pass `x ↦ x_hat`;
* `emd` — `compute_emd`, returning the scalar distance and the assignment
  used to reorder the decoded cloud;
* `reorder` — the indexing `x_hat[assignment]`;
* `rolloutFwd`  — the inner `forward` closure (set_state / step / compute_loss
  under `ti.Tape`), returning the accumulated loss and the raw state gradient
  `x_hat_grad` read back from the engine for the substituted state.

The pipeline is: encode/decode the first frame, compute the EMD
correspondence and `loss_first`, reorder, substitute into a deep copy of
`state`, run the gradient rollout, clamp the gradient to `[-1, 1]`, and gate
on NaN.
-/
def focalSolveMultistep
    (model : Cloud → Cloud)
    (emd : Cloud → Cloud → ℕ → ℚ × List ℕ)
    (reorder : Cloud → List ℕ → Cloud)
    (rolloutFwd : PState → ℚ × List FVal)
    (state : PState) : SolveResult :=
  let x := state.headD []
  let xHat := model x
  let p := emd x xHat 3000
  let lossFirst := p.1
  let xHat2 := reorder xHat p.2
  let stateHat := state.set 0 xHat2
  let r := rolloutFwd stateHat
  let loss := r.1
  let grad := r.2.map (FVal.clamp (-1) 1)
  if ¬ anyNan grad then
    (some xHat2, some grad, lossFirst, loss)
  else
    (none, none, lossFirst, loss)

/--
`learn_latent.Solver.solve_multistep` (lines 66-112), embedded.

Differs from the focal variant: the correspondence comes from `solve_icp`
(which returns only an assignment, no distance), and the third component of
the result is the literal constant `0`.
-/
def latentSolveMultistep
    (model : Cloud → Cloud)
    (icp : Cloud → Cloud → ℕ → List ℕ)
    (reorder : Cloud → List ℕ → Cloud)
    (rolloutFwd : PState → ℚ × List FVal)
    (state : PState) : SolveResult :=
  let x := state.headD []
  let xHat := model x
  let assignment := icp xHat x 3000
  let xHat2 := reorder xHat assignment
  let stateHat := state.set 0 xHat2
  let r := rolloutFwd stateHat
  let loss := r.1
  let grad := r.2.map (FVal.clamp (-1) 1)
  if ¬ anyNan grad then
    (some xHat2, some grad, 0, loss)
  else
    (none, none, 0, loss)

/-- The decoded, correspondence-reordered cloud `x_hat` of `solve_multistep`
in the focal variant (lines 99-103). -/
def focalDecoded (model : Cloud → Cloud) (emd : Cloud → Cloud → ℕ → ℚ × List ℕ)
    (reorder : Cloud → List ℕ → Cloud) (state : PState) : Cloud :=
  reorder (model (state.headD [])) (emd (state.headD []) (model (state.headD [])) 3000).2

/-- The scalar distance `loss_first` returned by `compute_emd` (line 101). -/
def focalLossFirst (model : Cloud → Cloud) (emd : Cloud → Cloud → ℕ → ℚ × List ℕ)
    (state : PState) : ℚ :=
  (emd (state.headD []) (model (state.headD [])) 3000).1

/-- The result of the inner gradient rollout `forward(state_hat, targets,
actions)` (line 106): loss and raw state gradient. -/
def focalRollout (model : Cloud → Cloud) (emd : Cloud → Cloud → ℕ → ℚ × List ℕ)
    (reorder : Cloud → List ℕ → Cloud) (rolloutFwd : PState → ℚ × List FVal)
    (state : PState) : ℚ × List FVal :=
  rolloutFwd (state.set 0 (focalDecoded model emd reorder state))

/-- The clamped gradient `x_hat_grad.clamp(-1, 1)` (line 107). -/
def focalClampedGrad (model : Cloud → Cloud) (emd : Cloud → Cloud → ℕ → ℚ × List ℕ)
    (reorder : Cloud → List ℕ → Cloud) (rolloutFwd : PState → ℚ × List FVal)
    (state : PState) : List FVal :=
  (focalRollout model emd reorder rolloutFwd state).2.map (FVal.clamp (-1) 1)

/-- Boolean check that a gradient holds only real (non-NaN) values, all
within the closed interval `[-1, 1]`. -/
def boundedGrad (g : List FVal) : Bool :=
  g.all fun v =>
    match v with
    | .nan => false
    | .val q => decide (-1 ≤ q ∧ q ≤ 1)

/-!
### The distributed focal training loop (`focal_learn_latent.learn_latent_focal`)

Per epoch `i` the loop body (lines 278-334) first iterates the batches with
the *current* value of `use_grad[0]` (initialised `[False]` on line 276) and
only then, at the end of the epoch body, switches the mode:

    if i % 5 == 0:
        dataloader = _update_focal_scheme(original_dataset, 1000)
        use_grad[0] = True
    elif i % 5 == 4:
        use_grad[0] = False
-/

/-- Per-epoch bookkeeping of `learn_latent_focal`: the mode the batches of
epoch `i` were processed with, whether the dataloader was rebuilt at the end
of this epoch, and the mode left for the next epoch. -/
structure EpochEffect where
  batchesGradMode : Bool
  rebuiltAfter : Bool
  nextUseGrad : Bool
deriving DecidableEq, Repr

/-- One iteration of the epoch loop of `learn_latent_focal` as far as the
mode flag is concerned: batches run under the incoming `use_grad`, then the
tail of the loop body updates the flag and possibly rebuilds the dataloader. -/
def focalEpochEffect (i : ℕ) (useGrad : Bool) : EpochEffect :=
  { batchesGradMode := useGrad
    rebuiltAfter := i % 5 = 0
    nextUseGrad := if i % 5 = 0 then true else if i % 5 = 4 then false else useGrad }

/-- The value `use_grad[0]` holds when epoch `i` begins (equivalently, the
mode in which the batches of epoch `i` are processed). `use_grad` starts `False`. -/
def useGradAt : ℕ → Bool
  | 0 => false
  | i + 1 => (focalEpochEffect i (useGradAt i)).nextUseGrad

/-!
### Per-epoch loss accumulation

Gradient-mode branch of `learn_latent_focal` (lines 290-302), identical in
structure to `learn_latent` (lines 248-260): for each batch the quadruple
returned by `solve_multistep` updates `(procAvgLoss[i], efficientBatchCnt)`;
only batches whose state and gradient are both non-`None` contribute.
At the end of the epoch, `procAvgLoss[i] /= efficientBatchCnt` (line 326 /
line 280) — a Python `ZeroDivisionError` when the count is zero, modelled
by `Option`.
-/

/-- One gradient-mode batch step on `(procAvgLoss[i], efficientBatchCnt)`:
`if result_state is not None and gradient is not None:` accumulate the loss
and the count, `else` skip (the zero-weighted collective call touches
neither accumulator). -/
def gradBatchStep (acc : ℚ × ℕ) (r : SolveResult) : ℚ × ℕ :=
  match r with
  | (some _, some _, _, loss) => (acc.1 + loss, acc.2 + 1)
  | _ => acc

/-- Folding a whole gradient-mode epoch over its batch results, starting
from `procAvgLoss[i] = 0.0` and `efficientBatchCnt = 0`. -/
def gradEpochAccum (results : List SolveResult) : ℚ × ℕ :=
  results.foldl gradBatchStep (0, 0)

/-- End-of-epoch normalisation `procAvgLoss[i] /= efficientBatchCnt`:
dividing by a zero count raises in Python, modelled as `none`. -/
def epochAvg (acc : ℚ) (cnt : ℕ) : Option ℚ :=
  if cnt = 0 then none else some (acc / cnt)

/-- The loss of a usable batch: the fourth component of the quadruple, kept
only when the first two components are non-`None`. -/
def usableLoss (r : SolveResult) : Option ℚ :=
  match r with
  | (some _, some _, _, loss) => some loss
  | _ => none

/-- One evaluation-mode batch step on `(procAvgLoss[i], efficientBatchCnt)`
(`focal_learn_latent.py` lines 313-322): every batch accumulates its
`currentLoss` and bumps the count — `exec_multistep` has no NaN path. -/
def evalBatchStep (acc : ℚ × ℕ) (loss : ℚ) : ℚ × ℕ :=
  (acc.1 + loss, acc.2 + 1)

/-- Folding a whole evaluation-mode epoch over its batch losses. -/
def evalEpochAccum (losses : List ℚ) : ℚ × ℕ :=
  losses.foldl evalBatchStep (0, 0)

/-!
### The single-agent trajectory optimizer (`solver.py`, `Solver.solve`)

Lines 66-84:

    best_action = None
    best_loss = 1e10
    actions = init_actions
    for iter in range(self.cfg.n_iters):
        loss, grads = forward(env_state["state"], actions)
        if loss < best_loss:
            best_loss = loss
            best_action = actions.copy()
        actions = optim.step(grads)
        forward_nograd(env_state["state"], actions)
    return best_action

The environment rollout and the pluggable optimizer are abstracted into
`ev : α → ℚ` (the loss `forward` evaluates for the current action sequence
together with the internal optimizer state) and `next : α → α`
(`optim.step(grads)` producing the next action sequence / optimizer state).
-/

section SingleAgent

variable {α : Type}

/-- The loop state of `Solver.solve` after `k` iterations:
`(actions, best_loss, best_action)`. `best_loss` starts at `1e10` and
`best_action` at `None`; an iteration evaluates the current actions, updates
the best pair on strict improvement, and steps the optimizer. -/
def solveState (ev : α → ℚ) (next : α → α) (init : α) : ℕ → α × ℚ × Option α
  | 0 => (init, 10 ^ 10, none)
  | k + 1 =>
    if ev (solveState ev next init k).1 < (solveState ev next init k).2.1 then
      (next (solveState ev next init k).1, ev (solveState ev next init k).1,
        some (solveState ev next init k).1)
    else
      (next (solveState ev next init k).1, (solveState ev next init k).2.1,
        (solveState ev next init k).2.2)

/-- `best_loss` after `k` iterations of `Solver.solve`. -/
def bestLossAt (ev : α → ℚ) (next : α → α) (init : α) (k : ℕ) : ℚ :=
  (solveState ev next init k).2.1

/-- The return value of `Solver.solve` after `n` iterations: `best_action`. -/
def solveReturn (ev : α → ℚ) (next : α → α) (init : α) (n : ℕ) : Option α :=
  (solveState ev next init n).2.2

end SingleAgent

/-!
### Trajectory archiving (`solver.py`, `forward_nograd`, lines 50-64)

    def forward_nograd(sim_state, action):
        env.set_state(...)
        for i in range(len(action)):
            env.save_current_state(...)
            action_buffer.append(action[i])
            env.step(action[i]); self.total_steps += 1; self.pc_cnt += 1
            env.compute_loss(taichi_loss=True)
        action_buffer.append(np.zeros_like(action[i]))  # For alignment
        env.save_current_state(...)
        self.pc_cnt += 1

`pc_cnt` counts saved state snapshots, `action_buffer` the saved actions.
On an empty `action` the trailing `np.zeros_like(action[i])` would raise
(the loop variable is unbound), hence the `Option`.
-/

/-- An action vector. -/
abbrev ActVec := List ℚ

/-- `np.zeros_like` on an action vector. -/
def zerosLike (a : ActVec) : ActVec := a.map (fun _ => 0)

/-- One archiving pass of `forward_nograd` acting on
`(pc_cnt, action_buffer)`: each loop iteration saves one state snapshot and
appends one real action; after the loop one zero action is appended and one
final state snapshot is saved. `none` models the crash on an empty action
sequence. -/
def forwardNograd (st : ℕ × List ActVec) (action : List ActVec) :
    Option (ℕ × List ActVec) :=
  match action with
  | [] => none
  | _ =>
    let s := action.foldl (fun acc a => (acc.1 + 1, acc.2 ++ [a])) st
    some (s.1 + 1, s.2 ++ [zerosLike (action.getLastD [])])

/-- All archiving passes of one `Solver.solve` call, starting from
`pc_cnt = 0` and an empty `action_buffer` (lines 33-35), one pass per
iteration (line 79). -/
def archiveRun (passes : List (List ActVec)) : Option (ℕ × List ActVec) :=
  passes.foldlM forwardNograd (0, [])

/-!
### Mutation model for `exec_multistep` (`focal_learn_latent.py`, lines 115-153)

Python containers are heap objects passed by reference. To state the frame
condition that the caller `state`/`actions`/`targets` stay unchanged, we run the
embedded `exec_multistep` over an explicit heap of containers: `copy.deepcopy`
allocates a fresh address, and the only container write in the body —
`state_hat[0] = x_hat.cpu().double().detach().numpy()` — hits that fresh
address.
-/

/-- A heap of Python list-of-array containers: a store indexed by address and
an allocation bound (every live address is `< next`). -/
structure Heap where
  store : ℕ → List Cloud
  next : ℕ

/-- Dereference a container. -/
def Heap.read (h : Heap) (a : ℕ) : List Cloud := h.store a

/-- `copy.deepcopy`: allocate a fresh address holding a copy of the value. -/
def Heap.alloc (h : Heap) (v : List Cloud) : Heap × ℕ :=
  (⟨fun a => if a = h.next then v else h.store a, h.next + 1⟩, h.next)

/-- `obj[i] = v` on the container at address `a`. -/
def Heap.writeIdx (h : Heap) (a i : ℕ) (v : Cloud) : Heap :=
  ⟨fun b => if b = a then (h.store b).set i v else h.store b, h.next⟩

/--
`focal_learn_latent.Solver.exec_multistep`, embedded over the heap. The
caller passes the addresses of its `state`, `actions` and `targets`
containers; the body reads `state[0]`, encodes/decodes it, computes the EMD
correspondence and reorders, deep-copies `state` into `state_hat`,
substitutes the decoded cloud for `state_hat[0]`, and runs the non-gradient
rollout (`forward`, lines 133-144, abstracted as `rolloutLoss` over the
contents of the three containers). Returns the final heap with
`(loss_first, loss)`.
-/
def execMultistepHeap
    (model : Cloud → Cloud)
    (emd : Cloud → Cloud → ℕ → ℚ × List ℕ)
    (reorder : Cloud → List ℕ → Cloud)
    (rolloutLoss : List Cloud → List Cloud → List Cloud → ℚ)
    (h : Heap) (stateA actionsA targetsA : ℕ) : Heap × ℚ × ℚ :=
  let state := h.read stateA
  let x := state.headD []
  let xHat := model x
  let p := emd x xHat 3000
  let lossFirst := p.1
  let xHat2 := reorder xHat p.2
  let alloc := h.alloc (h.read stateA)
  let h1 := alloc.1
  let stateHatA := alloc.2
  let h2 := h1.writeIdx stateHatA 0 xHat2
  let loss := rolloutLoss (h2.read stateHatA) (h2.read targetsA) (h2.read actionsA)
  (h2, lossFirst, loss)

/-!
## Helper lemmas
-/

/-- On the NaN path, `solve_multistep` (focal variant) returns the sentinel
quadruple `(None, None, loss_first, loss)`. -/
lemma focalSolveMultistep_of_nan (model : Cloud → Cloud)
    (emd : Cloud → Cloud → ℕ → ℚ × List ℕ) (reorder : Cloud → List ℕ → Cloud)
    (rolloutFwd : PState → ℚ × List FVal) (state : PState)
    (h : anyNan (focalClampedGrad model emd reorder rolloutFwd state) = true) :
    focalSolveMultistep model emd reorder rolloutFwd state
      = (none, none, focalLossFirst model emd state,
          (focalRollout model emd reorder rolloutFwd state).1) := by
  simp only [focalSolveMultistep, focalClampedGrad, focalRollout, focalDecoded,
    focalLossFirst, List.headD_eq_head?] at h ⊢
  rw [if_neg]
  simp [h]

/-- Off the NaN path, `solve_multistep` (focal variant) returns the decoded
cloud and the clamped gradient with `loss_first` and `loss`. -/
lemma focalSolveMultistep_of_ok (model : Cloud → Cloud)
    (emd : Cloud → Cloud → ℕ → ℚ × List ℕ) (reorder : Cloud → List ℕ → Cloud)
    (rolloutFwd : PState → ℚ × List FVal) (state : PState)
    (h : anyNan (focalClampedGrad model emd reorder rolloutFwd state) = false) :
    focalSolveMultistep model emd reorder rolloutFwd state
      = (some (focalDecoded model emd reorder state),
         some (focalClampedGrad model emd reorder rolloutFwd state),
         focalLossFirst model emd state,
         (focalRollout model emd reorder rolloutFwd state).1) := by
  simp only [focalSolveMultistep, focalClampedGrad, focalRollout, focalDecoded,
    focalLossFirst, List.headD_eq_head?] at h ⊢
  rw [if_pos]
  simp [h]

/-- A NaN-free list of clamped values consists of real values in `[-1, 1]`. -/
lemma boundedGrad_of_clamped_noNan (l : List FVal)
    (h : anyNan (l.map (FVal.clamp (-1) 1)) = false) :
    boundedGrad (l.map (FVal.clamp (-1) 1)) = true := by
  induction l with
  | nil => rfl
  | cons v tl ih =>
    simp only [List.map_cons, anyNan, List.any_cons, Bool.or_eq_false_iff] at h
    simp only [List.map_cons, boundedGrad, List.all_cons, Bool.and_eq_true]
    refine ⟨?_, ih h.2⟩
    cases v with
    | nan => simp [FVal.clamp, FVal.isnan] at h
    | val q =>
      simp only [FVal.clamp]
      simp only [decide_eq_true_eq]
      split_ifs with h1 h2
      · norm_num
      · norm_num
      · constructor <;> linarith

/-- The mode flag of `learn_latent_focal` is `True` exactly for epochs whose
index is not a multiple of 5: the flag starts `False`, is set `True` at the
end of each `i % 5 == 0` epoch and reset `False` at the end of each
`i % 5 == 4` epoch. -/
lemma useGradAt_eq (i : ℕ) : useGradAt i = decide (¬ i % 5 = 0) := by
  induction i with
  | zero => rfl
  | succ n ih =>
    have hcase : n % 5 = 0 ∨ n % 5 = 1 ∨ n % 5 = 2 ∨ n % 5 = 3 ∨ n % 5 = 4 := by omega
    have hsucc : (n + 1) % 5 = (n % 5 + 1) % 5 := by omega
    rcases hcase with h | h | h | h | h <;>
      simp [useGradAt, focalEpochEffect, ih, hsucc, h]

/-- Folding the gradient-mode batch accumulator adds exactly the usable
losses and counts exactly the usable batches. -/
lemma gradEpochAccum_go (results : List SolveResult) (a : ℚ) (c : ℕ) :
    results.foldl gradBatchStep (a, c)
      = (a + (results.filterMap usableLoss).sum, c + (results.filterMap usableLoss).length) := by
  induction results generalizing a c with
  | nil => simp
  | cons r rs ih =>
    obtain ⟨s, g, lf, l⟩ := r
    cases s <;> cases g <;>
      simp [List.foldl_cons, gradBatchStep, usableLoss, ih, add_assoc]
    omega

/-- Folding the evaluation-mode batch accumulator adds every loss and counts
every batch. -/
lemma evalEpochAccum_go (losses : List ℚ) (a : ℚ) (c : ℕ) :
    losses.foldl evalBatchStep (a, c) = (a + losses.sum, c + losses.length) := by
  induction losses generalizing a c with
  | nil => simp
  | cons l ls ih =>
    simp [List.foldl_cons, evalBatchStep, ih, add_assoc]
    omega

/-- The first component of the loop state is the optimizer iterate:
`actions` after `k` iterations is `next` applied `k` times to the initial
action sequence. -/
lemma solveState_fst {α : Type} (ev : α → ℚ) (next : α → α) (init : α) (k : ℕ) :
    (solveState ev next init k).1 = next^[k] init := by
  induction k with
  | zero => rfl
  | succ n ih =>
    rw [Function.iterate_succ_apply']
    simp only [solveState]
    split <;> simp [ih]

/-- Unfolding one improving iteration of `Solver.solve`. -/
lemma solveState_succ_of_lt {α : Type} (ev : α → ℚ) (next : α → α) (init : α) (n : ℕ)
    (h : ev (solveState ev next init n).1 < (solveState ev next init n).2.1) :
    solveState ev next init (n + 1)
      = (next (solveState ev next init n).1, ev (solveState ev next init n).1,
          some (solveState ev next init n).1) := by
  simp only [solveState]
  rw [if_pos h]

/-- Unfolding one non-improving iteration of `Solver.solve`. -/
lemma solveState_succ_of_ge {α : Type} (ev : α → ℚ) (next : α → α) (init : α) (n : ℕ)
    (h : ¬ ev (solveState ev next init n).1 < (solveState ev next init n).2.1) :
    solveState ev next init (n + 1)
      = (next (solveState ev next init n).1, (solveState ev next init n).2.1,
          (solveState ev next init n).2.2) := by
  simp only [solveState]
  rw [if_neg h]

/-- Invariant of the best-so-far tracking in `Solver.solve`: after `n`
iterations, either no observed loss beat the initial `1e10` and
`best_action` is still `None`, or `best_action` holds the iterate whose
loss `best_loss` is a minimum of all observed losses. -/
lemma solveState_spec {α : Type} (ev : α → ℚ) (next : α → α) (init : α) (n : ℕ) :
    ((solveState ev next init n).2.1 = 10 ^ 10
      ∧ (solveState ev next init n).2.2 = none
      ∧ ∀ j, j < n → (10 : ℚ) ^ 10 ≤ ev (next^[j] init))
    ∨ (∃ k, k < n ∧ (solveState ev next init n).2.2 = some (next^[k] init)
        ∧ (solveState ev next init n).2.1 = ev (next^[k] init)
        ∧ ∀ j, j < n → (solveState ev next init n).2.1 ≤ ev (next^[j] init)) := by
  induction n with
  | zero =>
    left
    exact ⟨rfl, rfl, fun j hj => absurd hj (by omega)⟩
  | succ n ih =>
    have hub : ∀ j, j < n → (solveState ev next init n).2.1 ≤ ev (next^[j] init) := by
      intro j hj
      rcases ih with ⟨hbl, _, hge⟩ | ⟨k, _, _, _, hge⟩
      · rw [hbl]; exact hge j hj
      · exact hge j hj
    by_cases h : ev (solveState ev next init n).1 < (solveState ev next init n).2.1
    · right
      refine ⟨n, by omega, ?_, ?_, ?_⟩
      · rw [solveState_succ_of_lt ev next init n h]
        simp [solveState_fst]
      · rw [solveState_succ_of_lt ev next init n h]
        simp [solveState_fst]
      · intro j hj
        rw [solveState_succ_of_lt ev next init n h]
        simp only [solveState_fst]
        have h2 := h
        rw [solveState_fst] at h2
        rcases Nat.lt_succ_iff_lt_or_eq.mp hj with hj2 | hj2
        · exact le_of_lt (lt_of_lt_of_le h2 (hub j hj2))
        · subst hj2; exact le_refl _
    · rcases ih with ⟨hbl, hba, hge⟩ | ⟨k, hk, hba, hbl, hge⟩
      · left
        rw [solveState_succ_of_ge ev next init n h]
        refine ⟨hbl, hba, ?_⟩
        intro j hj
        rcases Nat.lt_succ_iff_lt_or_eq.mp hj with hj2 | hj2
        · exact hge j hj2
        · subst hj2
          rw [solveState_fst] at h
          rw [← hbl]
          exact le_of_not_lt h
      · right
        refine ⟨k, by omega, ?_, ?_, ?_⟩
        · rw [solveState_succ_of_ge ev next init n h]
          exact hba
        · rw [solveState_succ_of_ge ev next init n h]
          exact hbl
        · intro j hj
          rw [solveState_succ_of_ge ev next init n h]
          rcases Nat.lt_succ_iff_lt_or_eq.mp hj with hj2 | hj2
          · exact hge j hj2
          · subst hj2
            rw [solveState_fst] at h
            exact le_of_not_lt h

/-- One archiving loop of `forward_nograd`: the fold over the action list
bumps the snapshot counter once and appends one action per step. -/
lemma archiveFold (action : List ActVec) (st : ℕ × List ActVec) :
    action.foldl (fun acc a => (acc.1 + 1, acc.2 ++ [a])) st
      = (st.1 + action.length, st.2 ++ action) := by
  induction action generalizing st with
  | nil => simp
  | cons a tl ih =>
    simp only [List.foldl_cons, ih, List.length_cons, List.append_assoc,
      List.singleton_append, Prod.mk.injEq]
    exact ⟨by omega, trivial⟩

/-- Effect of one successful `forward_nograd` pass on the snapshot counter
and the action buffer: both grow by `len(action) + 1`. -/
lemma forwardNograd_effect (st st2 : ℕ × List ActVec) (action : List ActVec)
    (hstep : forwardNograd st action = some st2) :
    st2.1 = st.1 + (action.length + 1)
    ∧ st2.2.length = st.2.length + (action.length + 1) := by
  cases action with
  | nil => simp [forwardNograd] at hstep
  | cons a tl =>
    simp only [forwardNograd, archiveFold, Option.some.injEq] at hstep
    subst hstep
    simp
    omega

/-- The archive invariant `pc_cnt = len(action_buffer)` is preserved by the
whole sequence of archiving passes. -/
lemma archiveRun_go (passes : List (List ActVec)) :
    ∀ st : ℕ × List ActVec, st.1 = st.2.length →
      ∀ res, passes.foldlM forwardNograd st = some res → res.1 = res.2.length := by
  induction passes with
  | nil =>
    intro st hst res hres
    simp only [List.foldlM_nil] at hres
    cases hres
    exact hst
  | cons p ps ih =>
    intro st hst res hres
    rw [List.foldlM_cons] at hres
    cases hp : forwardNograd st p with
    | none => rw [hp] at hres; simp at hres
    | some st2 =>
      rw [hp] at hres
      simp only [Option.bind_eq_bind, Option.some_bind] at hres
      have he := forwardNograd_effect st st2 p hp
      exact ih st2 (by omega) res hres

/-!
## Concrete test fixtures (used by witness theorems)
-/

/-- Identity autoencoder fixture. -/
def cModel : Cloud → Cloud := fun c => c

/-- Constant EMD-oracle fixture: distance `7`, identity-ish assignment. -/
def cEmd : Cloud → Cloud → ℕ → ℚ × List ℕ := fun _ _ _ => (7, [0])

/-- Reordering fixture: ignore the assignment. -/
def cReorder : Cloud → List ℕ → Cloud := fun c _ => c

/-- Rollout fixture whose gradient read-back contains a NaN. -/
def cFwdNan : PState → ℚ × List FVal := fun _ => (5, [FVal.nan])

/-- Rollout fixture with finite gradient entries, some out of `[-1, 1]`. -/
def cFwdOk : PState → ℚ × List FVal :=
  fun _ => (5, [FVal.val 2, FVal.val (-3), FVal.val 0])

/-- A five-array particle-state fixture. -/
def cState : PState := [[1, 2, 3], [], [], [], []]

/-!
## Claim theorems
-/

/-- C3: for every configured step count `s` and target length `L`, the
effective rollout length used by `solve_multistep` / `exec_multistep` is `L`
when `s` is unset (`None`) or `s ≤ 0`, is `min s L` when `s > 0`, and never
exceeds `L`. -/
theorem c3_effective_rollout_length (s : ℤ) (L : ℕ) :
    effectiveSteps none L = L
    ∧ (s ≤ 0 → effectiveSteps (some s) L = L)
    ∧ (0 < s → effectiveSteps (some s) L = min s.toNat L)
    ∧ effectiveSteps (some s) L ≤ L := by
  refine ⟨rfl, ?_, ?_, ?_⟩
  · intro hs
    simp only [effectiveSteps]
    rw [if_neg]
    omega
  · intro hs
    simp only [effectiveSteps]
    split
    · omega
    · omega
  · simp only [effectiveSteps]
    split
    · omega
    · omega

/-- C3 witness: at `s = 3`, `L = 5` the hypotheses hold and the length is
`min 3 5`. -/
theorem c3_effective_rollout_length_witness :
    (0 : ℤ) < 3 ∧ effectiveSteps (some 3) 5 = min (Int.toNat 3) 5 :=
  ⟨by decide, (c3_effective_rollout_length 3 5).2.2.1 (by decide)⟩

/-- C2: NaN gating of `solve_multistep` (focal variant): if any element of
the clamped state gradient is NaN the call returns the sentinel
`(None, None, loss_first, loss)`, otherwise it returns the decoded/reordered
cloud and the clamped gradient together with `loss_first` and `loss`; in
both cases a quadruple is returned, never an exception. -/
theorem c2_nan_gating (model : Cloud → Cloud)
    (emd : Cloud → Cloud → ℕ → ℚ × List ℕ) (reorder : Cloud → List ℕ → Cloud)
    (rolloutFwd : PState → ℚ × List FVal) (state : PState) :
    (anyNan (focalClampedGrad model emd reorder rolloutFwd state) = true →
      focalSolveMultistep model emd reorder rolloutFwd state
        = (none, none, focalLossFirst model emd state,
            (focalRollout model emd reorder rolloutFwd state).1))
    ∧ (anyNan (focalClampedGrad model emd reorder rolloutFwd state) = false →
      focalSolveMultistep model emd reorder rolloutFwd state
        = (some (focalDecoded model emd reorder state),
           some (focalClampedGrad model emd reorder rolloutFwd state),
           focalLossFirst model emd state,
           (focalRollout model emd reorder rolloutFwd state).1)) :=
  ⟨focalSolveMultistep_of_nan model emd reorder rolloutFwd state,
   focalSolveMultistep_of_ok model emd reorder rolloutFwd state⟩

/-- C2 witness: a rollout whose gradient holds a NaN yields the sentinel
quadruple at a concrete input. -/
theorem c2_nan_gating_witness :
    anyNan (focalClampedGrad cModel cEmd cReorder cFwdNan cState) = true
    ∧ focalSolveMultistep cModel cEmd cReorder cFwdNan cState
        = (none, none, focalLossFirst cModel cEmd cState,
            (focalRollout cModel cEmd cReorder cFwdNan cState).1) :=
  ⟨rfl, (c2_nan_gating cModel cEmd cReorder cFwdNan cState).1 rfl⟩

/-- C8: whenever `solve_multistep` returns a non-`None` gradient (either
variant), every element of that gradient is a real value in the closed
interval `[-1, 1]`. -/
theorem c8_gradient_in_unit_interval (model : Cloud → Cloud)
    (emd : Cloud → Cloud → ℕ → ℚ × List ℕ) (icp : Cloud → Cloud → ℕ → List ℕ)
    (reorder : Cloud → List ℕ → Cloud) (rolloutFwd rolloutFwd2 : PState → ℚ × List FVal)
    (state state2 : PState) (g g2 : List FVal)
    (hf : (focalSolveMultistep model emd reorder rolloutFwd state).2.1 = some g)
    (hl : (latentSolveMultistep model icp reorder rolloutFwd2 state2).2.1 = some g2) :
    boundedGrad g = true ∧ boundedGrad g2 = true := by
  constructor
  · simp only [focalSolveMultistep, List.headD_eq_head?] at hf
    split at hf
    · next hc =>
      simp only [Option.some.injEq] at hf
      subst hf
      exact boundedGrad_of_clamped_noNan _ (by simpa using hc)
    · simp at hf
  · simp only [latentSolveMultistep, List.headD_eq_head?] at hl
    split at hl
    · next hc =>
      simp only [Option.some.injEq] at hl
      subst hl
      exact boundedGrad_of_clamped_noNan _ (by simpa using hc)
    · simp at hl

/-- C8 witness: at a concrete NaN-free input both variants return a gradient
whose entries all lie in `[-1, 1]` (the raw entries `2, -3, 0` clamp to
`1, -1, 0`). -/
theorem c8_gradient_in_unit_interval_witness :
    (focalSolveMultistep cModel cEmd cReorder cFwdOk cState).2.1
        = some [FVal.val 1, FVal.val (-1), FVal.val 0]
    ∧ (latentSolveMultistep cModel (fun _ _ _ => [0]) cReorder cFwdOk cState).2.1
        = some [FVal.val 1, FVal.val (-1), FVal.val 0]
    ∧ boundedGrad [FVal.val 1, FVal.val (-1), FVal.val 0] = true := by
  refine ⟨by decide, by decide, ?_⟩
  exact (c8_gradient_in_unit_interval cModel cEmd (fun _ _ _ => [0]) cReorder cFwdOk cFwdOk
    cState cState [FVal.val 1, FVal.val (-1), FVal.val 0]
    [FVal.val 1, FVal.val (-1), FVal.val 0] (by decide) (by decide)).1

/-- C9: the third return value of `solve_multistep` is the EMD oracle
distance between the true first frame and the decoded cloud in the focal
variant, and the constant `0` in the `learn_latent` variant, for every
input: the two variants deliberately diverge on this component. -/
theorem c9_loss_first_divergence (model : Cloud → Cloud)
    (emd : Cloud → Cloud → ℕ → ℚ × List ℕ) (icp : Cloud → Cloud → ℕ → List ℕ)
    (reorder : Cloud → List ℕ → Cloud) (rolloutFwd rolloutFwd2 : PState → ℚ × List FVal)
    (state state2 : PState) :
    (focalSolveMultistep model emd reorder rolloutFwd state).2.2.1
      = (emd (state.headD []) (model (state.headD [])) 3000).1
    ∧ (latentSolveMultistep model icp reorder rolloutFwd2 state2).2.2.1 = 0 := by
  constructor
  · simp only [focalSolveMultistep]
    split <;> rfl
  · simp only [latentSolveMultistep]
    split <;> rfl

/-- C1 counterexample: at epoch `i = 0` (so `i mod 5 == 0`) the batches are
processed in evaluation mode, not gradient mode, because `use_grad` starts
`False` and the `i % 5` switch runs only after the batches of the epoch:
the claim that the batches of every `i mod 5 == 0` epoch run in gradient
mode after a fresh dataloader rebuild is false. -/
theorem c1_mode_schedule_counterexample :
    0 % 5 = 0
    ∧ useGradAt 0 = false
    ∧ (focalEpochEffect 0 (useGradAt 0)).batchesGradMode = false := by
  exact ⟨rfl, rfl, rfl⟩

/-- C1 amended: the `i mod 5` switch of `learn_latent_focal` takes effect
only from epoch `i + 1` on: the batches of epoch `i` are processed in
gradient mode exactly when `i mod 5 ≠ 0` (in evaluation mode when
`i mod 5 == 0`); at the end of an `i mod 5 == 0` epoch the dataloader is
rebuilt from a freshly resampled focal subset and gradient mode is set; at
the end of an `i mod 5 == 4` epoch evaluation mode is set; at the end of
every other epoch the mode is retained. -/
theorem c1_mode_schedule_amended (i : ℕ) :
    (focalEpochEffect i (useGradAt i)).batchesGradMode = decide (¬ i % 5 = 0)
    ∧ (focalEpochEffect i (useGradAt i)).rebuiltAfter = decide (i % 5 = 0)
    ∧ useGradAt (i + 1)
        = (if i % 5 = 0 then true else if i % 5 = 4 then false else useGradAt i) := by
  refine ⟨?_, ?_, ?_⟩
  · simpa [focalEpochEffect] using useGradAt_eq i
  · simp [focalEpochEffect]
  · rfl

/-- C4: at the end of a gradient-mode epoch, `procAvgLoss[i]` holds the sum
of the losses of exactly the batches whose `solve_multistep` produced a
usable (non-`None`) state/gradient pair, `efficientBatchCnt` counts exactly
those batches, and the end-of-epoch division yields their arithmetic mean;
in an evaluation-mode epoch every batch contributes and the division yields
the mean over all batches. -/
theorem c4_epoch_average (results : List SolveResult) (losses : List ℚ)
    (hg : (results.filterMap usableLoss).length ≠ 0) (he : losses ≠ []) :
    (gradEpochAccum results).1 = (results.filterMap usableLoss).sum
    ∧ (gradEpochAccum results).2 = (results.filterMap usableLoss).length
    ∧ epochAvg (gradEpochAccum results).1 (gradEpochAccum results).2
        = some ((results.filterMap usableLoss).sum / ((results.filterMap usableLoss).length : ℚ))
    ∧ evalEpochAccum losses = (losses.sum, losses.length)
    ∧ epochAvg (evalEpochAccum losses).1 (evalEpochAccum losses).2
        = some (losses.sum / (losses.length : ℚ)) := by
  have h1 : gradEpochAccum results
      = ((results.filterMap usableLoss).sum, (results.filterMap usableLoss).length) := by
    simpa using gradEpochAccum_go results 0 0
  have h2 : evalEpochAccum losses = (losses.sum, losses.length) := by
    simpa using evalEpochAccum_go losses 0 0
  refine ⟨by rw [h1], by rw [h1], ?_, h2, ?_⟩
  · rw [h1]
    simp only [epochAvg]
    rw [if_neg hg]
  · rw [h2]
    simp only [epochAvg]
    rw [if_neg]
    simpa using he

/-- C4 witness: with batch results `[usable loss 3, NaN-gated, usable loss 7]`
the accumulator reaches `(10, 2)` and the epoch average is `5`; an
evaluation epoch with losses `[4, 6]` also averages to `5`. -/
theorem c4_epoch_average_witness :
    (([(some [], some [], (1 : ℚ), (3 : ℚ)), (none, none, 2, 5),
        (some [], some [], 0, 7)] : List SolveResult).filterMap usableLoss).length ≠ 0
    ∧ ([(4 : ℚ), 6] : List ℚ) ≠ []
    ∧ epochAvg (gradEpochAccum [(some [], some [], (1 : ℚ), (3 : ℚ)), (none, none, 2, 5),
        (some [], some [], 0, 7)]).1
        (gradEpochAccum [(some [], some [], (1 : ℚ), (3 : ℚ)), (none, none, 2, 5),
          (some [], some [], 0, 7)]).2
      = some ((([(some [], some [], (1 : ℚ), (3 : ℚ)), (none, none, 2, 5),
          (some [], some [], 0, 7)] : List SolveResult).filterMap usableLoss).sum
          / ((([(some [], some [], (1 : ℚ), (3 : ℚ)), (none, none, 2, 5),
              (some [], some [], 0, 7)] : List SolveResult).filterMap usableLoss).length : ℚ)) := by
  refine ⟨by decide, by decide, ?_⟩
  exact (c4_epoch_average
    [(some [], some [], (1 : ℚ), (3 : ℚ)), (none, none, 2, 5), (some [], some [], 0, 7)]
    [(4 : ℚ), 6] (by decide) (by decide)).2.2.1

/-- C10: if every batch of a gradient-mode epoch hits the NaN gate of
`solve_multistep` (so every call returns the `(None, None, ...)` sentinel),
then `efficientBatchCnt` is `0` at the end of the epoch and the
end-of-epoch `procAvgLoss[i] /= efficientBatchCnt` divides by zero (a
raised `ZeroDivisionError`, modelled by `none`): the per-batch NaN-skip
path does not protect the end-of-epoch average. -/
theorem c10_all_nan_epoch_divides_by_zero (model : Cloud → Cloud)
    (emd : Cloud → Cloud → ℕ → ℚ × List ℕ) (reorder : Cloud → List ℕ → Cloud)
    (rolloutFwd : PState → ℚ × List FVal) (inputs : List PState)
    (hnan : ∀ s ∈ inputs, anyNan (focalClampedGrad model emd reorder rolloutFwd s) = true) :
    (gradEpochAccum (inputs.map (focalSolveMultistep model emd reorder rolloutFwd))).2 = 0
    ∧ epochAvg
        (gradEpochAccum (inputs.map (focalSolveMultistep model emd reorder rolloutFwd))).1
        (gradEpochAccum (inputs.map (focalSolveMultistep model emd reorder rolloutFwd))).2
      = none := by
  have hfilter :
      ((inputs.map (focalSolveMultistep model emd reorder rolloutFwd)).filterMap usableLoss)
        = [] := by
    rw [List.filterMap_map]
    rw [List.filterMap_eq_nil_iff]
    intro s hs
    rw [Function.comp_apply, focalSolveMultistep_of_nan model emd reorder rolloutFwd s
      (hnan s hs)]
    rfl
  have h1 := gradEpochAccum_go (inputs.map (focalSolveMultistep model emd reorder rolloutFwd)) 0 0
  rw [hfilter] at h1
  simp only [List.sum_nil, List.length_nil, Nat.add_zero, Rat.add_zero] at h1
  have h2 : gradEpochAccum (inputs.map (focalSolveMultistep model emd reorder rolloutFwd))
      = ((0 : ℚ), (0 : ℕ)) := by
    simpa [gradEpochAccum] using h1
  rw [h2]
  exact ⟨rfl, rfl⟩

/-- C10 witness: a one-batch epoch whose rollout gradient is NaN ends with a
zero count and a division-by-zero on the epoch average. -/
theorem c10_all_nan_epoch_divides_by_zero_witness :
    (∀ s ∈ [cState], anyNan (focalClampedGrad cModel cEmd cReorder cFwdNan s) = true)
    ∧ epochAvg
        (gradEpochAccum ([cState].map (focalSolveMultistep cModel cEmd cReorder cFwdNan))).1
        (gradEpochAccum ([cState].map (focalSolveMultistep cModel cEmd cReorder cFwdNan))).2
      = none := by
  refine ⟨by decide, ?_⟩
  exact (c10_all_nan_epoch_divides_by_zero cModel cEmd cReorder cFwdNan [cState]
    (by decide)).2

/-- C5 counterexample: when every observed rollout loss is at least the
initial sentinel `best_loss = 1e10` (here a single iteration with constant
loss `2e10`), `Solver.solve` returns `None` rather than the action sequence
whose evaluated loss is the minimum over all iterations, and `best_loss`
stays at the sentinel `1e10` rather than the observed minimum `2e10`: the
claim as stated fails on this input. -/
theorem c5_best_so_far_counterexample :
    solveReturn (fun _ : ℚ => 2 * 10 ^ 10) id 0 1 = none
    ∧ bestLossAt (fun _ : ℚ => 2 * 10 ^ 10) id 0 1 = 10 ^ 10 := by
  constructor
  · simp only [solveReturn, solveState]
    rw [if_neg (by norm_num)]
  · simp only [bestLossAt, solveState]
    rw [if_neg (by norm_num)]

/-- C5 amended: `best_loss` is monotonically non-increasing across
iterations, and provided at least one iteration evaluates to a loss below
the initial sentinel `1e10`, the returned action sequence is an iterate
whose evaluated rollout loss is the minimum over all iterations (the
best-so-far sequence, not necessarily the final iterate); with no loss
below `1e10`, `solve` returns `None`. -/
theorem c5_best_so_far (α : Type) (ev : α → ℚ) (next : α → α) (init : α) (n k : ℕ)
    (hk : k < n) (hbelow : ev (next^[k] init) < 10 ^ 10) :
    (∀ j, bestLossAt ev next init (j + 1) ≤ bestLossAt ev next init j)
    ∧ (∃ m, m < n ∧ solveReturn ev next init n = some (next^[m] init)
        ∧ bestLossAt ev next init n = ev (next^[m] init)
        ∧ ∀ j, j < n → ev (next^[m] init) ≤ ev (next^[j] init)) := by
  constructor
  · intro j
    simp only [bestLossAt, solveState]
    split
    · next h => exact le_of_lt h
    · exact le_refl _
  · rcases solveState_spec ev next init n with ⟨_, _, hge⟩ | ⟨m, hm, hba, hbl, hge⟩
    · exact absurd (hge k hk) (not_le_of_lt hbelow)
    · refine ⟨m, hm, hba, hbl, ?_⟩
      intro j hj
      rw [← hbl]
      exact hge j hj

/-- C5 witness: one iteration with constant loss `0` (below the sentinel):
the returned sequence is the initial iterate, whose loss is minimal. -/
theorem c5_best_so_far_witness :
    (0 : ℕ) < 1 ∧ (fun _ : ℚ => (0 : ℚ)) (id^[0] (0 : ℚ)) < 10 ^ 10
    ∧ ((∀ j, bestLossAt (fun _ : ℚ => (0 : ℚ)) id 0 (j + 1)
          ≤ bestLossAt (fun _ : ℚ => (0 : ℚ)) id 0 j)
      ∧ (∃ m, m < 1 ∧ solveReturn (fun _ : ℚ => (0 : ℚ)) id 0 1 = some (id^[m] (0 : ℚ))
          ∧ bestLossAt (fun _ : ℚ => (0 : ℚ)) id 0 1 = (fun _ : ℚ => (0 : ℚ)) (id^[m] (0 : ℚ))
          ∧ ∀ j, j < 1 → (fun _ : ℚ => (0 : ℚ)) (id^[m] (0 : ℚ))
              ≤ (fun _ : ℚ => (0 : ℚ)) (id^[j] (0 : ℚ)))) :=
  ⟨by norm_num, by norm_num,
    c5_best_so_far ℚ (fun _ : ℚ => (0 : ℚ)) id 0 1 0 (by norm_num) (by norm_num)⟩

/-- C6: `exec_multistep` never mutates the caller-supplied `state`,
`actions` or `targets` containers: it deep-copies `state` into a fresh
container before substituting the decoded first frame, so after the call
the contents at the callers addresses are exactly what they were before. -/
theorem c6_exec_multistep_frame (model : Cloud → Cloud)
    (emd : Cloud → Cloud → ℕ → ℚ × List ℕ) (reorder : Cloud → List ℕ → Cloud)
    (rolloutLoss : List Cloud → List Cloud → List Cloud → ℚ)
    (h : Heap) (stateA actionsA targetsA : ℕ)
    (hs : stateA < h.next) (ha : actionsA < h.next) (ht : targetsA < h.next) :
    ((execMultistepHeap model emd reorder rolloutLoss h stateA actionsA targetsA).1.read stateA
        = h.read stateA)
    ∧ ((execMultistepHeap model emd reorder rolloutLoss h stateA actionsA targetsA).1.read actionsA
        = h.read actionsA)
    ∧ ((execMultistepHeap model emd reorder rolloutLoss h stateA actionsA targetsA).1.read targetsA
        = h.read targetsA) := by
  have hs2 : stateA ≠ h.next := by omega
  have ha2 : actionsA ≠ h.next := by omega
  have ht2 : targetsA ≠ h.next := by omega
  refine ⟨?_, ?_, ?_⟩ <;>
    simp [execMultistepHeap, Heap.read, Heap.alloc, Heap.writeIdx, hs2, ha2, ht2]

/-- Concrete three-container heap fixture: addresses `0`, `1`, `2` live. -/
def cHeap : Heap := ⟨fun _ => [[1], [2]], 3⟩

/-- C6 witness: on a concrete heap the three live addresses are untouched by
the call. -/
theorem c6_exec_multistep_frame_witness :
    (0 < cHeap.next ∧ 1 < cHeap.next ∧ 2 < cHeap.next)
    ∧ (execMultistepHeap cModel cEmd cReorder (fun _ _ _ => 0) cHeap 0 1 2).1.read 0
        = cHeap.read 0 :=
  ⟨⟨by decide, by decide, by decide⟩,
    (c6_exec_multistep_frame cModel cEmd cReorder (fun _ _ _ => 0) cHeap 0 1 2
      (by decide) (by decide) (by decide)).1⟩

/-- C7: each successful `forward_nograd` archiving pass appends
`len(actions)` real actions plus one trailing zero vector and saves
`len(actions) + 1` state snapshots, preserving the invariant that the
snapshot count equals the saved-action count; consequently after all passes
of a `solve` run the number of saved state snapshots equals the length of
the saved action array. -/
theorem c7_archive_alignment (action : List ActVec) (st st2 : ℕ × List ActVec)
    (hstep : forwardNograd st action = some st2) (hinv : st.1 = st.2.length) :
    st2.1 = st.1 + (action.length + 1)
    ∧ st2.2.length = st.2.length + (action.length + 1)
    ∧ st2.1 = st2.2.length
    ∧ (∀ passes res, archiveRun passes = some res → res.1 = res.2.length) := by
  have he := forwardNograd_effect st st2 action hstep
  refine ⟨he.1, he.2, by omega, ?_⟩
  intro passes res hres
  exact archiveRun_go passes (0, []) rfl res hres

/-- C7 witness: one pass over a single action `[1, 2]` starting from the
empty archive yields two actions (the real one plus the zero pad) and two
snapshots. -/
theorem c7_archive_alignment_witness :
    forwardNograd (0, ([] : List ActVec)) [[1, 2]] = some (2, [[1, 2], [0, 0]])
    ∧ (0 : ℕ) = ([] : List ActVec).length
    ∧ (2, ([[1, 2], [0, 0]] : List ActVec)).1 = (2, ([[1, 2], [0, 0]] : List ActVec)).2.length :=
  ⟨by decide, rfl,
    (c7_archive_alignment [[1, 2]] (0, []) (2, [[1, 2], [0, 0]]) (by decide) rfl).2.2.1⟩

end PLB
